import Mathlib

/-!
Verification of the cautious-backoff admission-control primitive
(`src/lib.rs` of `Gelbpunkt/cautious-backoff`): a coordinator task that
serializes permit issuance to concurrent callers and adapts the delay
before the next permit by exponential backoff.

Modelling choices (shallow embedding):

* Rust `std::time::Duration` values are modelled as their total length in
  nanoseconds (`Nat`).  `Duration` ranges over `0 .. durationMax`
  nanoseconds, and `Duration * u32` (used by `current_retry_interval *= 2`
  on line 59) panics when the product exceeds `Duration::MAX`; a panic is
  modelled as `Except.error ()`.

* The body of the coordinator loop after a permit has been delivered
  (lines 56-73) is the pure function `backoffStep`: it consumes the result
  of `outcome_rx.await` (`some o` when an outcome was reported, `none`
  when the permit was dropped unresolved) and yields the new
  `current_retry_interval` together with the list of `sleep` calls the
  branch performs (empty on abandonment, a singleton otherwise).

* The whole coordinator (lines 38-75), including the request queue, permit
  granting, termination and the possible overflow panic, is the labelled
  transition system `Step` / `Trace` further below; it is used for the
  serialization, FIFO and liveness claims.
-/

namespace CautiousBackoff

/-- Decidable equality for `Except`, used to evaluate runs of the model on
concrete inputs. -/
instance {ε α : Type} [DecidableEq ε] [DecidableEq α] : DecidableEq (Except ε α) := fun x y =>
  match x, y with
  | Except.ok a, Except.ok b =>
      if h : a = b then isTrue (by rw [h]) else isFalse (by intro hc; injection hc; contradiction)
  | Except.error a, Except.error b =>
      if h : a = b then isTrue (by rw [h]) else isFalse (by intro hc; injection hc; contradiction)
  | Except.ok _, Except.error _ => isFalse (by intro hc; cases hc)
  | Except.error _, Except.ok _ => isFalse (by intro hc; cases hc)

/-- Nanoseconds per second. -/
def nanosPerSec : Nat := 1000000000

/-- `Duration::MAX` in nanoseconds: `u64::MAX` seconds plus `999 999 999`
nanoseconds, i.e. `2^64 * 10^9 - 1`. -/
def durationMax : Nat := 2 ^ 64 * nanosPerSec - 1

/-- `Duration::MAX / 2` (`Duration` division truncates at nanosecond
precision). -/
def durationMaxHalf : Nat := durationMax / 2

/-- The two-valued outcome signal (`enum Outcome`, lines 77-80). -/
inductive Outcome
  | success
  | fail
  deriving DecidableEq

/-- Embeds lines 59-63 of `src/lib.rs`: `current_retry_interval *= 2`
followed by the clamp `if current_retry_interval > cap`.  The doubling is
`Duration * u32` arithmetic, which panics (`Except.error ()`) when the
doubled value exceeds `Duration::MAX`; the clamp only runs afterwards. -/
def failUpdate (cap c : Nat) : Except Unit Nat :=
  if durationMax < c * 2 then Except.error ()
  else Except.ok (if cap < c * 2 then cap else c * 2)

/-- One iteration of the coordinator loop from the point where the granted
permit is resolved (lines 56-73): `some o` means `outcome_rx.await`
returned `Ok(o)`, `none` means the permit was dropped without an outcome.
Returns the new `current_retry_interval` and the list of `sleep` durations
performed before the loop continues; `Except.error ()` is the overflow
panic of the `Fail` branch. -/
def backoffStep (initial cap tbp c : Nat) : Option Outcome → Except Unit (Nat × List Nat)
  | some Outcome.fail =>
      match failUpdate cap c with
      | Except.error _ => Except.error ()
      | Except.ok c2 => Except.ok (c2, [c2])
  | some Outcome.success => Except.ok (initial, [tbp])
  | none => Except.ok (c, [])

/-- Iterates `backoffStep` over a sequence of permit resolutions, starting
from `current_retry_interval = c`.  Returns the final interval and the
concatenated list of sleeps, or `Except.error ()` if some `Fail` panics. -/
def backoffRun (initial cap tbp c : Nat) : List (Option Outcome) → Except Unit (Nat × List Nat)
  | [] => Except.ok (c, [])
  | r :: rs =>
      match backoffStep initial cap tbp c r with
      | Except.error _ => Except.error ()
      | Except.ok (c2, ds) =>
          match backoffRun initial cap tbp c2 rs with
          | Except.error _ => Except.error ()
          | Except.ok (cf, ds2) => Except.ok (cf, ds ++ ds2)

/-- The successive values taken by `current_retry_interval` along a run
(the observable points of the coordinator), starting with the value set on
line 44; truncated at a panic. -/
def backoffStates (initial cap tbp c : Nat) : List (Option Outcome) → List Nat
  | [] => [c]
  | r :: rs =>
      c :: (match backoffStep initial cap tbp c r with
            | Except.error _ => []
            | Except.ok (c2, _) => backoffStates initial cap tbp c2 rs)

example : backoffRun 100 800 50 100
    [some Outcome.fail, some Outcome.fail, some Outcome.fail, some Outcome.fail, some Outcome.fail]
    = Except.ok (800, [200, 400, 800, 800, 800]) := by decide

example : backoffRun 100 1000 50 100 [some Outcome.fail, some Outcome.success, some Outcome.fail]
    = Except.ok (200, [200, 50, 200]) := by decide

example : backoffStep 100 800 50 300 none = Except.ok (300, []) := by decide

/-- Embeds `oneshot::Sender::send`: delivery succeeds when the receiving
half is still alive, otherwise the value is handed back as the error (the
Rust `send` returns `Err(value)`). -/
def oneshotSend (receiverAlive : Bool) (v : Outcome) : Except Outcome Unit :=
  if receiverAlive then Except.ok () else Except.error v

/-- Embeds `Permit::success` (lines 85-87): the result of the `send` is
discarded with `let _ = ...`.  The first component is the value returned
to the caller, the second is the outcome the coordinator observes
(`none` when the report was discarded because the coordinator no longer
listens). -/
def permitSuccess (receiverAlive : Bool) : Unit × Option Outcome :=
  match oneshotSend receiverAlive Outcome.success with
  | Except.ok _ => ((), some Outcome.success)
  | Except.error _ => ((), none)

/-- Embeds `Permit::fail` (lines 89-91), analogously to `permitSuccess`. -/
def permitFail (receiverAlive : Bool) : Unit × Option Outcome :=
  match oneshotSend receiverAlive Outcome.fail with
  | Except.ok _ => ((), some Outcome.fail)
  | Except.error _ => ((), none)

/-!
## The coordinator as a labelled transition system

`Step` embeds the whole `backoff` task (lines 38-75) together with the
request queue shared with the `CautiousBackoff` handles (lines 11-35):

* `enqueue` is a caller's `wait` sending a fresh reply slot into the
  unbounded FIFO channel; it requires a live sender (`closed = false`) and
  a running coordinator task (a panicked task has dropped the receiver).
* `close` is the drop of the last handle clone.
* `grant` is lines 47-54: the coordinator dequeues the oldest pending
  request and immediately delivers a permit through its reply slot; there
  is no suspension point between the dequeue and the delivery.
* `resolve` is lines 56-73: the outcome (or abandonment) of the single
  outstanding permit is observed and the interval/sleep logic of
  `failUpdate` runs; a `Fail` whose doubling overflows moves the task to
  the absorbing `panicked` phase.
* `terminate` is lines 47-49 returning: `recv` yields `None` only when the
  queue is empty and every sender has been dropped.

Requests are identified by their arrival index; `enqueued` and `served`
record the histories needed to state FIFO fairness.  Cancellation of an
in-flight `wait` (unsupported by the contract, spec section 9) is not
modelled.
-/

/-- Phase of the coordinator task: `idle` between requests, `granted`
while a permit is outstanding, `terminated` after a normal return,
`panicked` after the overflow panic of the `Fail` branch. -/
inductive Phase
  | idle
  | granted
  | terminated
  | panicked
  deriving DecidableEq

/-- Global state of the coordinator task and its request queue. -/
structure CoordState where
  phase : Phase
  current : Nat
  pending : List Nat
  nextId : Nat
  closed : Bool
  enqueued : List Nat
  served : List Nat
  deriving DecidableEq

/-- Observable events of the system. -/
inductive Event
  | enqueue
  | close
  | grant (rid : Nat)
  | resolve (r : Option Outcome)
  | terminate

/-- The state right after `CautiousBackoff::new`: line 44 sets
`current_retry_interval = initial`, the queue is empty, the handle is
alive. -/
def initCoord (initial : Nat) : CoordState :=
  { phase := Phase.idle
    current := initial
    pending := []
    nextId := 0
    closed := false
    enqueued := []
    served := []
  }

/-- One transition of the coordinator system; see the module comment
above for the correspondence with `src/lib.rs`. -/
inductive Step (initial cap tbp : Nat) : CoordState → Event → CoordState → Prop
  | enqueue (s : CoordState) (h1 : s.closed = false) (h2 : s.phase ≠ Phase.panicked) :
      Step initial cap tbp s Event.enqueue
        { s with pending := s.pending ++ [s.nextId]
                 enqueued := s.enqueued ++ [s.nextId]
                 nextId := s.nextId + 1 }
  | close (s : CoordState) (h : s.closed = false) :
      Step initial cap tbp s Event.close { s with closed := true }
  | grant (s : CoordState) (rid : Nat) (rest : List Nat)
      (h1 : s.phase = Phase.idle) (h2 : s.pending = rid :: rest) :
      Step initial cap tbp s (Event.grant rid)
        { s with phase := Phase.granted
                 pending := rest
                 served := s.served ++ [rid] }
  | resolveSuccess (s : CoordState) (h : s.phase = Phase.granted) :
      Step initial cap tbp s (Event.resolve (some Outcome.success))
        { s with phase := Phase.idle, current := initial }
  | resolveFail (s : CoordState) (c2 : Nat) (h : s.phase = Phase.granted)
      (hu : failUpdate cap s.current = Except.ok c2) :
      Step initial cap tbp s (Event.resolve (some Outcome.fail))
        { s with phase := Phase.idle, current := c2 }
  | resolveFailPanic (s : CoordState) (h : s.phase = Phase.granted)
      (hu : failUpdate cap s.current = Except.error ()) :
      Step initial cap tbp s (Event.resolve (some Outcome.fail))
        { s with phase := Phase.panicked }
  | resolveAbandoned (s : CoordState) (h : s.phase = Phase.granted) :
      Step initial cap tbp s (Event.resolve none) { s with phase := Phase.idle }
  | terminate (s : CoordState) (h1 : s.phase = Phase.idle) (h2 : s.closed = true)
      (h3 : s.pending = []) :
      Step initial cap tbp s Event.terminate { s with phase := Phase.terminated }

/-- Finite executions of the system: `Trace initial cap tbp s es t` means
the event sequence `es` leads from state `s` to state `t`. -/
inductive Trace (initial cap tbp : Nat) : CoordState → List Event → CoordState → Prop
  | refl (s : CoordState) : Trace initial cap tbp s [] s
  | snoc {s t u : CoordState} {es : List Event} {e : Event} :
      Trace initial cap tbp s es t → Step initial cap tbp t e u →
      Trace initial cap tbp s (es ++ [e]) u

/-- Recognizes permit-grant events. -/
def isGrantEvent : Event → Bool
  | Event.grant _ => true
  | _ => false

/-- Recognizes permit-resolution events (outcome reported or abandoned). -/
def isResolveEvent : Event → Bool
  | Event.resolve _ => true
  | _ => false

/-- Number of permits granted in an event sequence. -/
def grantCount (es : List Event) : Nat := es.countP isGrantEvent

/-- Number of permits resolved (outcome reported or abandoned) in an
event sequence. -/
def resolveCount (es : List Event) : Nat := es.countP isResolveEvent

/-!
## Helper lemmas
-/

lemma durationMaxHalf_double_le : durationMaxHalf * 2 ≤ durationMax :=
  Nat.div_mul_le_self durationMax 2

lemma double_le_of_le_half {c : Nat} (h : c ≤ durationMaxHalf) : c * 2 ≤ durationMax :=
  le_trans (Nat.mul_le_mul_right 2 h) durationMaxHalf_double_le

lemma failUpdate_ok (cap c : Nat) (h : c * 2 ≤ durationMax) :
    failUpdate cap c = Except.ok (min (c * 2) cap) := by
  unfold failUpdate
  rw [if_neg (Nat.not_lt.mpr h)]
  have hmin : (if cap < c * 2 then cap else c * 2) = min (c * 2) cap := by
    rcases Nat.lt_or_ge cap (c * 2) with hc | hc
    · rw [if_pos hc, min_eq_right (le_of_lt hc)]
    · rw [if_neg (Nat.not_lt.mpr hc), min_eq_left hc]
  rw [hmin]

lemma failUpdate_err (cap c : Nat) (h : durationMax < c * 2) :
    failUpdate cap c = Except.error () := by
  unfold failUpdate
  rw [if_pos h]

lemma failUpdate_ok_le {cap c c2 : Nat} (h : failUpdate cap c = Except.ok c2) : c2 ≤ cap := by
  unfold failUpdate at h
  by_cases hov : durationMax < c * 2
  · rw [if_pos hov] at h
    cases h
  · rw [if_neg hov] at h
    injection h with h
    subst h
    by_cases hc : cap < c * 2
    · rw [if_pos hc]
    · rw [if_neg hc]
      exact Nat.le_of_not_lt hc

lemma min_mul_clamp (a b m : Nat) (hm : 1 ≤ m) : min (min a b * m) b = min (a * m) b := by
  have hmono : ∀ x : Nat, x ≤ x * m := fun x =>
    le_trans (Nat.le_of_eq (mul_one x).symm) (Nat.mul_le_mul (le_refl x) hm)
  rcases le_total a b with h | h
  · rw [min_eq_left h]
  · rw [min_eq_right h, min_eq_right (hmono b), min_eq_right (le_trans h (hmono a))]

lemma backoffStep_fail_ok (initial cap tbp c : Nat) (h : c * 2 ≤ durationMax) :
    backoffStep initial cap tbp c (some Outcome.fail) =
      Except.ok (min (c * 2) cap, [min (c * 2) cap]) := by
  unfold backoffStep
  rw [failUpdate_ok cap c h]

/-- Backbone of the backoff-growth claim: along `K` consecutive failures
starting from interval `c`, the coordinator sleeps
`min (c * 2^(k+1)) cap` before the `k`-th next grant, provided the
doubling never overflows. -/
lemma backoffRun_replicate_fail (initial cap tbp : Nat) :
    ∀ (K c : Nat), c ≤ durationMaxHalf → cap ≤ durationMaxHalf →
      ∃ f, backoffRun initial cap tbp c (List.replicate K (some Outcome.fail)) =
        Except.ok (f, (List.range K).map fun k => min (c * 2 ^ (k + 1)) cap) := by
  intro K
  induction K with
  | zero =>
      intro c _ _
      exact ⟨c, by simp [backoffRun]⟩
  | succ K ih =>
      intro c hc hcap
      have hd : c * 2 ≤ durationMax := double_le_of_le_half hc
      have hc2 : min (c * 2) cap ≤ durationMaxHalf := le_trans (min_le_right _ _) hcap
      obtain ⟨f, hf⟩ := ih (min (c * 2) cap) hc2 hcap
      refine ⟨f, ?_⟩
      rw [List.replicate_succ]
      unfold backoffRun
      rw [backoffStep_fail_ok initial cap tbp c hd]
      simp only [hf]
      have hlist : min (c * 2) cap :: ((List.range K).map fun k => min (min (c * 2) cap * 2 ^ (k + 1)) cap)
          = (List.range (K + 1)).map fun k => min (c * 2 ^ (k + 1)) cap := by
        rw [List.range_succ_eq_map, List.map_cons, List.map_map]
        have hhead : min (c * 2 ^ (0 + 1)) cap = min (c * 2) cap := by norm_num
        rw [hhead]
        congr 1
        apply List.map_congr_left
        intro k _
        have hstep : min (min (c * 2) cap * 2 ^ (k + 1)) cap = min (c * 2 * 2 ^ (k + 1)) cap :=
          min_mul_clamp (c * 2) cap (2 ^ (k + 1)) (Nat.one_le_two_pow)
        rw [Function.comp_apply, hstep, Nat.succ_eq_add_one]
        congr 1
        ring
      rw [← hlist]
      simp

lemma grantCount_append (xs ys : List Event) :
    grantCount (xs ++ ys) = grantCount xs + grantCount ys := by
  simp [grantCount, List.countP_append]

lemma resolveCount_append (xs ys : List Event) :
    resolveCount (xs ++ ys) = resolveCount xs + resolveCount ys := by
  simp [resolveCount, List.countP_append]

/-- Permit accounting along any execution: the coordinator is in phase
`granted` exactly when one more permit has been granted than resolved,
and otherwise the two counts agree. -/
lemma trace_counts (initial cap tbp : Nat) {es : List Event} {t : CoordState}
    (h : Trace initial cap tbp (initCoord initial) es t) :
    (t.phase = Phase.granted → grantCount es = resolveCount es + 1) ∧
    (t.phase ≠ Phase.granted → grantCount es = resolveCount es) := by
  induction h with
  | refl => exact ⟨fun hp => Phase.noConfusion hp, fun _ => rfl⟩
  | snoc htr hst ih =>
      rename_i t1 u1 es1 e1
      rcases ih with ⟨ih1, ih2⟩
      cases hst with
      | enqueue h1 h2 =>
          have hg : grantCount (es1 ++ [Event.enqueue]) = grantCount es1 := by
            rw [grantCount_append]; rfl
          have hr : resolveCount (es1 ++ [Event.enqueue]) = resolveCount es1 := by
            rw [resolveCount_append]; rfl
          refine ⟨fun hp => ?_, fun hp => ?_⟩
          · rw [hg, hr]
            exact ih1 hp
          · rw [hg, hr]
            exact ih2 hp
      | close h =>
          have hg : grantCount (es1 ++ [Event.close]) = grantCount es1 := by
            rw [grantCount_append]; rfl
          have hr : resolveCount (es1 ++ [Event.close]) = resolveCount es1 := by
            rw [resolveCount_append]; rfl
          refine ⟨fun hp => ?_, fun hp => ?_⟩
          · rw [hg, hr]
            exact ih1 hp
          · rw [hg, hr]
            exact ih2 hp
      | grant rid rest h1 h2 =>
          refine ⟨fun _ => ?_, fun hp => absurd rfl hp⟩
          have hne : t1.phase ≠ Phase.granted := by
            rw [h1]
            intro hc
            exact Phase.noConfusion hc
          have hg : grantCount (es1 ++ [Event.grant rid]) = grantCount es1 + 1 := by
            rw [grantCount_append]; rfl
          have hr : resolveCount (es1 ++ [Event.grant rid]) = resolveCount es1 := by
            rw [resolveCount_append]; rfl
          rw [hg, hr, ih2 hne]
      | resolveSuccess h =>
          refine ⟨fun hp => Phase.noConfusion hp, fun _ => ?_⟩
          have hg : grantCount (es1 ++ [Event.resolve (some Outcome.success)]) = grantCount es1 := by
            rw [grantCount_append]; rfl
          have hr : resolveCount (es1 ++ [Event.resolve (some Outcome.success)])
              = resolveCount es1 + 1 := by
            rw [resolveCount_append]; rfl
          have := ih1 h
          rw [hg, hr]
          omega
      | resolveFail c2 h hu =>
          refine ⟨fun hp => Phase.noConfusion hp, fun _ => ?_⟩
          have hg : grantCount (es1 ++ [Event.resolve (some Outcome.fail)]) = grantCount es1 := by
            rw [grantCount_append]; rfl
          have hr : resolveCount (es1 ++ [Event.resolve (some Outcome.fail)])
              = resolveCount es1 + 1 := by
            rw [resolveCount_append]; rfl
          have := ih1 h
          rw [hg, hr]
          omega
      | resolveFailPanic h hu =>
          refine ⟨fun hp => Phase.noConfusion hp, fun _ => ?_⟩
          have hg : grantCount (es1 ++ [Event.resolve (some Outcome.fail)]) = grantCount es1 := by
            rw [grantCount_append]; rfl
          have hr : resolveCount (es1 ++ [Event.resolve (some Outcome.fail)])
              = resolveCount es1 + 1 := by
            rw [resolveCount_append]; rfl
          have := ih1 h
          rw [hg, hr]
          omega
      | resolveAbandoned h =>
          refine ⟨fun hp => Phase.noConfusion hp, fun _ => ?_⟩
          have hg : grantCount (es1 ++ [Event.resolve none]) = grantCount es1 := by
            rw [grantCount_append]; rfl
          have hr : resolveCount (es1 ++ [Event.resolve none]) = resolveCount es1 + 1 := by
            rw [resolveCount_append]; rfl
          have := ih1 h
          rw [hg, hr]
          omega
      | terminate h1 h2 h3 =>
          refine ⟨fun hp => Phase.noConfusion hp, fun _ => ?_⟩
          have hne : t1.phase ≠ Phase.granted := by
            rw [h1]
            intro hc
            exact Phase.noConfusion hc
          have hg : grantCount (es1 ++ [Event.terminate]) = grantCount es1 := by
            rw [grantCount_append]; rfl
          have hr : resolveCount (es1 ++ [Event.terminate]) = resolveCount es1 := by
            rw [resolveCount_append]; rfl
          rw [hg, hr]
          exact ih2 hne

/-- Queue bookkeeping along any execution: the requests that ever arrived
are exactly the served ones followed by the still-pending ones, in
arrival order. -/
lemma trace_queue (initial cap tbp : Nat) {es : List Event} {t : CoordState}
    (h : Trace initial cap tbp (initCoord initial) es t) :
    t.enqueued = t.served ++ t.pending := by
  induction h with
  | refl => rfl
  | snoc htr hst ih =>
      rename_i t1 u1 es1 e1
      cases hst with
      | enqueue h1 h2 =>
          show t1.enqueued ++ [t1.nextId] = t1.served ++ (t1.pending ++ [t1.nextId])
          rw [ih, List.append_assoc]
      | close h => exact ih
      | grant rid rest h1 h2 =>
          show t1.enqueued = (t1.served ++ [rid]) ++ rest
          rw [ih, h2, List.append_assoc]
          rfl
      | resolveSuccess h => exact ih
      | resolveFail c2 h hu => exact ih
      | resolveFailPanic h hu => exact ih
      | resolveAbandoned h => exact ih
      | terminate h1 h2 h3 => exact ih

/-- Safety invariant under bounded configurations: the interval stays at
most `Duration::MAX / 2` (so the doubling can never overflow), the task
never panics, and a terminated task implies every handle was dropped. -/
lemma trace_safe (initial cap tbp : Nat) (hin : initial ≤ durationMaxHalf)
    (hcap : cap ≤ durationMaxHalf) {es : List Event} {t : CoordState}
    (h : Trace initial cap tbp (initCoord initial) es t) :
    t.current ≤ durationMaxHalf ∧ t.phase ≠ Phase.panicked ∧
      (t.phase = Phase.terminated → t.closed = true) := by
  induction h with
  | refl => exact ⟨hin, fun hc => Phase.noConfusion hc, fun hc => Phase.noConfusion hc⟩
  | snoc htr hst ih =>
      rename_i t1 u1 es1 e1
      rcases ih with ⟨ihc, ihp, iht⟩
      cases hst with
      | enqueue h1 h2 => exact ⟨ihc, ihp, iht⟩
      | close h => exact ⟨ihc, ihp, fun _ => rfl⟩
      | grant rid rest h1 h2 =>
          exact ⟨ihc, fun hc => Phase.noConfusion hc, fun hc => Phase.noConfusion hc⟩
      | resolveSuccess h =>
          exact ⟨hin, fun hc => Phase.noConfusion hc, fun hc => Phase.noConfusion hc⟩
      | resolveFail c2 h hu =>
          exact ⟨le_trans (failUpdate_ok_le hu) hcap, fun hc => Phase.noConfusion hc,
            fun hc => Phase.noConfusion hc⟩
      | resolveFailPanic h hu =>
          exfalso
          rw [failUpdate_ok cap t1.current (double_le_of_le_half ihc)] at hu
          exact Except.noConfusion hu
      | resolveAbandoned h =>
          exact ⟨ihc, fun hc => Phase.noConfusion hc, fun hc => Phase.noConfusion hc⟩
      | terminate h1 h2 h3 =>
          exact ⟨ihc, fun hc => Phase.noConfusion hc, fun _ => h2⟩

lemma backoffStep_fail_err (initial cap tbp c : Nat) (h : durationMax < c * 2) :
    backoffStep initial cap tbp c (some Outcome.fail) = Except.error () := by
  unfold backoffStep
  rw [failUpdate_err cap c h]

lemma backoffStates_cons_ok {initial cap tbp c c2 : Nat} {r : Option Outcome} {ds : List Nat}
    (h : backoffStep initial cap tbp c r = Except.ok (c2, ds)) (rs : List (Option Outcome)) :
    backoffStates initial cap tbp c (r :: rs) = c :: backoffStates initial cap tbp c2 rs := by
  simp only [backoffStates, h]

lemma backoffStates_cons_err {initial cap tbp c : Nat} {r : Option Outcome}
    (h : backoffStep initial cap tbp c r = Except.error ()) (rs : List (Option Outcome)) :
    backoffStates initial cap tbp c (r :: rs) = [c] := by
  simp only [backoffStates, h]

/-- The interval-bounds invariant, generalized over the starting value:
every observable value of `current_retry_interval` stays in
`[initial, cap]`, provided the starting value does and `initial ≤ cap`. -/
lemma backoffStates_bounds (initial cap tbp : Nat) (h : initial ≤ cap) :
    ∀ (events : List (Option Outcome)) (c : Nat), initial ≤ c → c ≤ cap →
      ∀ s ∈ backoffStates initial cap tbp c events, initial ≤ s ∧ s ≤ cap := by
  intro events
  induction events with
  | nil =>
      intro c h1 h2 s hs
      simp only [backoffStates, List.mem_singleton] at hs
      subst hs
      exact ⟨h1, h2⟩
  | cons r rs ih =>
      intro c h1 h2 s hs
      cases r with
      | none =>
          rw [backoffStates_cons_ok
            (show backoffStep initial cap tbp c none = Except.ok (c, []) from rfl) rs] at hs
          rcases List.mem_cons.mp hs with hs | hs
          · subst hs
            exact ⟨h1, h2⟩
          · exact ih c h1 h2 s hs
      | some o =>
          cases o with
          | success =>
              rw [backoffStates_cons_ok
                (show backoffStep initial cap tbp c (some Outcome.success)
                  = Except.ok (initial, [tbp]) from rfl) rs] at hs
              rcases List.mem_cons.mp hs with hs | hs
              · subst hs
                exact ⟨h1, h2⟩
              · exact ih initial le_rfl h s hs
          | fail =>
              by_cases hov : durationMax < c * 2
              · rw [backoffStates_cons_err (backoffStep_fail_err initial cap tbp c hov) rs] at hs
                simp only [List.mem_singleton] at hs
                subst hs
                exact ⟨h1, h2⟩
              · have hle : c * 2 ≤ durationMax := Nat.le_of_not_lt hov
                rw [backoffStates_cons_ok (backoffStep_fail_ok initial cap tbp c hle) rs] at hs
                rcases List.mem_cons.mp hs with hs | hs
                · subst hs
                  exact ⟨h1, h2⟩
                · have hb1 : initial ≤ min (c * 2) cap :=
                    le_min (le_trans h1 (by omega)) h
                  exact ih (min (c * 2) cap) hb1 (min_le_right _ _) s hs

/-!
## The claims
-/

/-- C1 (as stated, counterexample): for the configuration
`initial_wait = max_wait = Duration::MAX`, a single `Fail` report does not
delay by `min(initial_wait * 2, max_wait)` — the doubling overflows
`Duration` and the coordinator panics. -/
theorem c1_counterexample :
    backoffRun durationMax durationMax 0 durationMax [some Outcome.fail] = Except.error () ∧
      backoffRun durationMax durationMax 0 durationMax [some Outcome.fail]
        ≠ Except.ok (min (durationMax * 2) durationMax, [min (durationMax * 2) durationMax]) := by
  have h1 : backoffRun durationMax durationMax 0 durationMax [some Outcome.fail]
      = Except.error () := by decide
  refine ⟨h1, ?_⟩
  rw [h1]
  intro hc
  exact Except.noConfusion hc

/-- C1 (amended): provided `initial_wait ≤ Duration::MAX / 2` and
`max_wait ≤ Duration::MAX / 2` (so the doubling can never overflow),
`K` consecutive `Fail` reports with no intervening `Success` or
abandonment make the coordinator sleep `min(initial_wait * 2^k, max_wait)`
before the `k`-th next grant, for `k = 1..K`. -/
theorem c1_backoff_growth (initial cap tbp K : Nat)
    (h1 : initial ≤ durationMaxHalf) (h2 : cap ≤ durationMaxHalf) :
    ∃ final, backoffRun initial cap tbp initial (List.replicate K (some Outcome.fail)) =
      Except.ok (final, (List.range K).map fun k => min (initial * 2 ^ (k + 1)) cap) :=
  backoffRun_replicate_fail initial cap tbp K initial h1 h2

/-- Witness for C1 (amended) at the spec's own example
`initial = 100, max = 800`, five failures. -/
theorem c1_backoff_growth_witness :
    ∃ final, backoffRun 100 800 50 100 (List.replicate 5 (some Outcome.fail)) =
      Except.ok (final, (List.range 5).map fun k => min (100 * 2 ^ (k + 1)) 800) :=
  c1_backoff_growth 100 800 50 5 (by decide) (by decide)

/-- C2: along every execution, at most one permit is unresolved at any
instant — the number of grants never exceeds the number of resolutions by
more than one, and never falls below it. -/
theorem c2_serialization (initial cap tbp : Nat) {es : List Event} {t : CoordState}
    (h : Trace initial cap tbp (initCoord initial) es t) :
    grantCount es ≤ resolveCount es + 1 ∧ resolveCount es ≤ grantCount es := by
  rcases trace_counts initial cap tbp h with ⟨h1, h2⟩
  by_cases hp : t.phase = Phase.granted
  · have := h1 hp
    omega
  · have := h2 hp
    omega

/-- Witness for C2 on a concrete two-event execution. -/
theorem c2_serialization_witness :
    grantCount [Event.enqueue, Event.grant 0] ≤ resolveCount [Event.enqueue, Event.grant 0] + 1 ∧
      resolveCount [Event.enqueue, Event.grant 0] ≤ grantCount [Event.enqueue, Event.grant 0] := by
  have st1 : Step 1 2 3 (initCoord 1) Event.enqueue
      (⟨Phase.idle, 1, [0], 1, false, [0], []⟩ : CoordState) :=
    Step.enqueue _ rfl (fun hc => Phase.noConfusion hc)
  have st2 : Step 1 2 3 (⟨Phase.idle, 1, [0], 1, false, [0], []⟩ : CoordState) (Event.grant 0)
      (⟨Phase.granted, 1, [], 1, false, [0], [0]⟩ : CoordState) :=
    Step.grant _ 0 [] rfl rfl
  exact c2_serialization 1 2 3 (Trace.snoc (Trace.snoc (Trace.refl _) st1) st2)

/-- C3 (as stated, counterexample): with `initial_wait = 2 > max_wait = 1`
(an ordering the claim explicitly allows), the very first observable state
violates `initial_interval ≤ current_interval ≤ max_interval`. -/
theorem c3_counterexample :
    2 ∈ backoffStates 2 1 5 2 [] ∧ ¬ (2 ≤ 2 ∧ 2 ≤ 1) := by decide

/-- C3 (amended): for configurations with `initial ≤ max_wait`, every
observable value of `current_interval` satisfies
`initial ≤ current_interval ≤ max_wait`; `Success` resets the interval to
`initial`, and `Fail` sets it to `min(current * 2, max_wait)` whenever the
doubling does not overflow `Duration`. -/
theorem c3_interval_invariant (initial cap tbp : Nat) (events : List (Option Outcome))
    (h : initial ≤ cap) :
    (∀ s ∈ backoffStates initial cap tbp initial events, initial ≤ s ∧ s ≤ cap) ∧
      (∀ c, backoffStep initial cap tbp c (some Outcome.success) = Except.ok (initial, [tbp])) ∧
      (∀ c, c * 2 ≤ durationMax →
        backoffStep initial cap tbp c (some Outcome.fail)
          = Except.ok (min (c * 2) cap, [min (c * 2) cap])) :=
  ⟨backoffStates_bounds initial cap tbp h events initial le_rfl h,
    fun _ => rfl,
    fun c hc => backoffStep_fail_ok initial cap tbp c hc⟩

/-- Witness for C3 (amended) at `initial = 1, max = 2`. -/
theorem c3_interval_invariant_witness :
    (∀ s ∈ backoffStates 1 2 3 1 [some Outcome.fail], 1 ≤ s ∧ s ≤ 2) ∧
      (∀ c, backoffStep 1 2 3 c (some Outcome.success) = Except.ok (1, [3])) ∧
      (∀ c, c * 2 ≤ durationMax →
        backoffStep 1 2 3 c (some Outcome.fail)
          = Except.ok (min (c * 2) 2, [min (c * 2) 2])) :=
  c3_interval_invariant 1 2 3 [some Outcome.fail] (by decide)

/-- C4 (as stated, counterexample): with
`initial_wait = max_wait = Duration::MAX`, a `Success` followed by a
`Fail` panics on the doubling instead of delaying
`min(initial_wait * 2, max_wait)`. -/
theorem c4_counterexample :
    backoffRun durationMax durationMax 0 durationMax
        [some Outcome.success, some Outcome.fail] = Except.error () ∧
      backoffRun durationMax durationMax 0 durationMax
          [some Outcome.success, some Outcome.fail]
        ≠ Except.ok (min (durationMax * 2) durationMax,
            [0, min (durationMax * 2) durationMax]) := by
  have h1 : backoffRun durationMax durationMax 0 durationMax
      [some Outcome.success, some Outcome.fail] = Except.error () := by decide
  refine ⟨h1, ?_⟩
  rw [h1]
  intro hc
  exact Except.noConfusion hc

/-- C4 (amended): from any prior interval `c` (i.e. after any sequence of
failures), one `Success` resets the interval to exactly `initial`, so
that — provided `initial * 2` does not overflow `Duration` — the
immediately following `Fail` sleeps exactly `min(initial * 2, max_wait)`. -/
theorem c4_reset_on_success (initial cap tbp c : Nat) (h : initial * 2 ≤ durationMax) :
    backoffStep initial cap tbp c (some Outcome.success) = Except.ok (initial, [tbp]) ∧
      backoffRun initial cap tbp c [some Outcome.success, some Outcome.fail]
        = Except.ok (min (initial * 2) cap, [tbp, min (initial * 2) cap]) := by
  refine ⟨rfl, ?_⟩
  have hs : backoffStep initial cap tbp c (some Outcome.success)
      = Except.ok (initial, [tbp]) := rfl
  have hf := backoffStep_fail_ok initial cap tbp initial h
  simp [backoffRun, hs, hf]

/-- Witness for C4 (amended) after a saturated failure history
(`c = 800`). -/
theorem c4_reset_on_success_witness :
    backoffStep 100 800 50 800 (some Outcome.success) = Except.ok (100, [50]) ∧
      backoffRun 100 800 50 800 [some Outcome.success, some Outcome.fail]
        = Except.ok (min (100 * 2) 800, [50, min (100 * 2) 800]) :=
  c4_reset_on_success 100 800 50 800 (by decide)

/-- C5: a run of `K` consecutive `Success` reports makes the coordinator
sleep exactly `time_between_permits` before each of the `K` next grants,
whatever interval `c` the preceding failure history had produced. -/
theorem c5_steady_pacing (initial cap tbp c K : Nat) :
    backoffRun initial cap tbp c (List.replicate K (some Outcome.success))
      = Except.ok ((if K = 0 then c else initial), List.replicate K tbp) := by
  induction K generalizing c with
  | zero => rfl
  | succ K ih =>
      rw [List.replicate_succ]
      unfold backoffRun
      have hs : backoffStep initial cap tbp c (some Outcome.success)
          = Except.ok (initial, [tbp]) := rfl
      rw [hs]
      simp only [ih initial, ite_self]
      rw [if_neg (Nat.succ_ne_zero K)]
      simp [List.replicate_succ]

/-- C6: an abandoned permit (outcome slot dropped without a value) leaves
`current_retry_interval` unchanged and performs no sleep at all — the run
continues exactly as if the abandoned cycle had not happened. -/
theorem c6_abandonment_free (initial cap tbp c : Nat) :
    backoffStep initial cap tbp c none = Except.ok (c, []) ∧
      ∀ rest, backoffRun initial cap tbp c (none :: rest)
        = backoffRun initial cap tbp c rest := by
  refine ⟨rfl, fun rest => ?_⟩
  simp only [backoffRun, backoffStep]
  cases hrun : backoffRun initial cap tbp c rest with
  | error e =>
      cases e
      rfl
  | ok p =>
      obtain ⟨cf, ds2⟩ := p
      rfl

/-- C7: FIFO fairness — along every execution the requests ever enqueued
are exactly the served ones followed by the pending ones, in arrival
order; equivalently, the served sequence is an initial segment of the
arrival sequence, so an earlier-enqueued request is granted no later than
a later one. -/
theorem c7_fifo (initial cap tbp : Nat) {es : List Event} {t : CoordState}
    (h : Trace initial cap tbp (initCoord initial) es t) :
    t.enqueued = t.served ++ t.pending ∧
      t.served = t.enqueued.take t.served.length := by
  have hq := trace_queue initial cap tbp h
  refine ⟨hq, ?_⟩
  rw [hq, List.take_left]

/-- Witness for C7 on a concrete execution with two queued requests. -/
theorem c7_fifo_witness :
    (⟨Phase.granted, 7, [1], 2, false, [0, 1], [0]⟩ : CoordState).enqueued
        = (⟨Phase.granted, 7, [1], 2, false, [0, 1], [0]⟩ : CoordState).served
          ++ (⟨Phase.granted, 7, [1], 2, false, [0, 1], [0]⟩ : CoordState).pending ∧
      (⟨Phase.granted, 7, [1], 2, false, [0, 1], [0]⟩ : CoordState).served
        = (⟨Phase.granted, 7, [1], 2, false, [0, 1], [0]⟩ : CoordState).enqueued.take
            (⟨Phase.granted, 7, [1], 2, false, [0, 1], [0]⟩ : CoordState).served.length := by
  have st1 : Step 7 9 11 (initCoord 7) Event.enqueue
      (⟨Phase.idle, 7, [0], 1, false, [0], []⟩ : CoordState) :=
    Step.enqueue _ rfl (fun hc => Phase.noConfusion hc)
  have st2 : Step 7 9 11 (⟨Phase.idle, 7, [0], 1, false, [0], []⟩ : CoordState) Event.enqueue
      (⟨Phase.idle, 7, [0, 1], 2, false, [0, 1], []⟩ : CoordState) :=
    Step.enqueue _ rfl (fun hc => Phase.noConfusion hc)
  have st3 : Step 7 9 11 (⟨Phase.idle, 7, [0, 1], 2, false, [0, 1], []⟩ : CoordState)
      (Event.grant 0) (⟨Phase.granted, 7, [1], 2, false, [0, 1], [0]⟩ : CoordState) :=
    Step.grant _ 0 [1] rfl rfl
  exact c7_fifo 7 9 11 (Trace.snoc (Trace.snoc (Trace.snoc (Trace.refl _) st1) st2) st3)

/-- C8 (as stated, counterexample): with
`initial_wait = max_wait = Duration::MAX`, after one granted permit
reports `Fail` the coordinator task panics and stops while the handle is
still alive (`closed = false`), so a subsequent `wait` cannot enqueue —
the coordinator did *not* only terminate after every handle was dropped. -/
theorem c8_counterexample :
    Trace durationMax durationMax 0 (initCoord durationMax)
        [Event.enqueue, Event.grant 0, Event.resolve (some Outcome.fail)]
        ⟨Phase.panicked, durationMax, [], 1, false, [0], [0]⟩ ∧
      (⟨Phase.panicked, durationMax, [], 1, false, [0], [0]⟩ : CoordState).closed = false ∧
      ¬ ∃ u, Step durationMax durationMax 0
          (⟨Phase.panicked, durationMax, [], 1, false, [0], [0]⟩ : CoordState)
          Event.enqueue u := by
  have h0 : 0 < durationMax := by norm_num [durationMax, nanosPerSec]
  have herr : failUpdate durationMax durationMax = Except.error () :=
    failUpdate_err durationMax durationMax (by omega)
  refine ⟨?_, rfl, ?_⟩
  · have st1 : Step durationMax durationMax 0 (initCoord durationMax) Event.enqueue
        (⟨Phase.idle, durationMax, [0], 1, false, [0], []⟩ : CoordState) :=
      Step.enqueue _ rfl (fun hc => Phase.noConfusion hc)
    have st2 : Step durationMax durationMax 0
        (⟨Phase.idle, durationMax, [0], 1, false, [0], []⟩ : CoordState) (Event.grant 0)
        (⟨Phase.granted, durationMax, [], 1, false, [0], [0]⟩ : CoordState) :=
      Step.grant _ 0 [] rfl rfl
    have st3 : Step durationMax durationMax 0
        (⟨Phase.granted, durationMax, [], 1, false, [0], [0]⟩ : CoordState)
        (Event.resolve (some Outcome.fail))
        (⟨Phase.panicked, durationMax, [], 1, false, [0], [0]⟩ : CoordState) :=
      Step.resolveFailPanic _ rfl herr
    exact Trace.snoc (Trace.snoc (Trace.snoc (Trace.refl _) st1) st2) st3
  · rintro ⟨u, hu⟩
    cases hu with
    | enqueue h1 h2 => exact h2 rfl

/-- C8 (amended): provided `initial_wait` and `max_wait` are at most
`Duration::MAX / 2` (so the coordinator can never panic), `wait`'s error
branches are unreachable: the coordinator never panics, it terminates only
after every handle clone has been dropped, and no enqueued request is ever
lost — each is either already granted a permit or still pending. -/
theorem c8_wait_infallible (initial cap tbp : Nat) {es : List Event} {t : CoordState}
    (h1 : initial ≤ durationMaxHalf) (h2 : cap ≤ durationMaxHalf)
    (h : Trace initial cap tbp (initCoord initial) es t) :
    t.phase ≠ Phase.panicked ∧ (t.phase = Phase.terminated → t.closed = true) ∧
      ∀ rid ∈ t.enqueued, rid ∈ t.served ∨ rid ∈ t.pending := by
  obtain ⟨-, hp, ht⟩ := trace_safe initial cap tbp h1 h2 h
  refine ⟨hp, ht, fun rid hr => ?_⟩
  rw [trace_queue initial cap tbp h] at hr
  exact List.mem_append.mp hr

/-- Witness for C8 (amended) at the initial state of a bounded
configuration. -/
theorem c8_wait_infallible_witness :
    (initCoord 1).phase ≠ Phase.panicked ∧
      ((initCoord 1).phase = Phase.terminated → (initCoord 1).closed = true) ∧
      ∀ rid ∈ (initCoord 1).enqueued, rid ∈ (initCoord 1).served ∨ rid ∈ (initCoord 1).pending :=
  c8_wait_infallible 1 2 3 (by decide) (by decide) (Trace.refl _)

/-- C9: `Permit::success` and `Permit::fail` always return `()` to the
caller; when the coordinator no longer listens the report is silently
discarded (nothing is delivered), and when it does listen the matching
outcome is delivered — in no case is an error or panic surfaced. -/
theorem c9_report_never_errors (alive : Bool) :
    (permitSuccess alive).1 = () ∧ (permitFail alive).1 = () ∧
      (permitSuccess false).2 = none ∧ (permitFail false).2 = none ∧
      (permitSuccess true).2 = some Outcome.success ∧
      (permitFail true).2 = some Outcome.fail := by
  cases alive <;> exact ⟨rfl, rfl, rfl, rfl, rfl, rfl⟩

/-- C10: the `Fail` update is total and equals `min(current * 2, max_wait)`
whenever `current ≤ Duration::MAX / 2`, but for the configuration
`initial_wait = 1 ns, max_wait = Duration::MAX > Duration::MAX / 2` a run
of 94 consecutive `Fail` reports reaches a state whose doubling overflows
`Duration`, and the coordinator panics instead of saturating. -/
theorem c10_doubling_overflow :
    (∀ cap c, c ≤ durationMaxHalf → failUpdate cap c = Except.ok (min (c * 2) cap)) ∧
      durationMaxHalf < durationMax ∧
      backoffRun 1 durationMax 0 1 (List.replicate 94 (some Outcome.fail))
        = Except.error () := by
  refine ⟨fun cap c hc => failUpdate_ok cap c (double_le_of_le_half hc), ?_, by decide⟩
  exact Nat.div_lt_self (by norm_num [durationMax, nanosPerSec]) (by norm_num)

/-- Witness for C10's totality part at `current = 300, max = 800`. -/
theorem c10_doubling_overflow_witness :
    failUpdate 800 300 = Except.ok (min (300 * 2) 800) :=
  c10_doubling_overflow.1 800 300 (by decide)

end CautiousBackoff
